import Mathlib

/-!
Verification of the ProofSnap browser-extension upload pipeline.

The definitions below are a shallow embedding of the repository's service
layer:

* `UploadService.ts` — the upload queue engine (`addToQueue`,
  `addMultipleToQueue`, `removeFromQueue`, `saveQueue`, `processQueue`,
  `handleUploadSuccess`, `handleUploadError`, `isInsufficientBalanceError`,
  `createSignedMetadata`, `restoreQueue`).
* `StorageService.ts` — the small durable key-value store (settings with
  defaults-merge, upload-queue ID list, insufficient-credits dismissal flag).
* `selection-overlay.ts` / the background service worker — region selection
  completion (`handleMouseUp`, `handleSelectionComplete`).

The blob store (`IndexedDBService.ts`) is not part of the provided sources;
it is modelled from the specification as a keyed collection of full asset
records with get-by-id, put, partial-update and delete.

Asynchronous `await` sequencing is modelled by emitting an explicit trace of
storage / messaging events (`StoreEv`) from each drain step, in the order in
which the source performs the corresponding awaits.  JavaScript numbers are
modelled as `Rat`; strings as `String`.
-/

/-- Asset lifecycle status, from the `Asset` record: one of
`draft`, `uploading`, `uploaded`, `failed`. -/
inductive AssetStatus
  | draft
  | uploading
  | uploaded
  | failed
deriving DecidableEq

/-- Open metadata mapping of an asset.  The source treats `metadata` as an
open JS object; this structure carries exactly the keys the service layer
reads or writes (capture dimensions, capture mode, upload progress, upload
identifiers, caption/tag, and the failure fields `error` / `errorType`).
A key that is absent (or deleted / set to `undefined`) is `none`. -/
structure Metadata where
  uploadedAt : Option String := none
  width : Option Rat := none
  height : Option Rat := none
  captureMode : Option String := none
  caption : Option String := none
  tag : Option String := none
  uploadProgress : Option Rat := none
  cid : Option String := none
  nid : Option String := none
  error : Option String := none
  errorType : Option String := none
deriving DecidableEq

/-- GPS location attached at capture time (latitude / longitude / accuracy /
timestamp), as produced by the geolocation step of the background worker. -/
structure GpsLocation where
  latitude : Rat
  longitude : Rat
  accuracy : Rat
  timestamp : Rat
deriving DecidableEq

/-- Source web page metadata (URL + title) captured at screenshot time. -/
structure SourceWebsite where
  url : String
  title : String
deriving DecidableEq

/-- The central asset entity, as created by the background worker and stored
in the blob store: id, data-URL payload, media type, MIME type, creation
timestamp (epoch milliseconds, `captureTime.getTime()`), status, metadata and
the optional enrichment fields. -/
structure Asset where
  id : String
  uri : String
  type : String := "image"
  mimeType : String := "image/png"
  createdAt : Rat := 0
  status : AssetStatus := AssetStatus.draft
  metadata : Metadata := {}
  gpsLocation : Option GpsLocation := none
  sourceWebsite : Option SourceWebsite := none
deriving DecidableEq

/-- Modelled from the spec: the durable blob store (`IndexedDBService`, not
among the provided sources) is a keyed collection of full asset records. -/
def AssetStore : Type := String → Option Asset

/-- Modelled from the spec: get-by-id on the blob store. -/
def getAsset (store : AssetStore) (id : String) : Option Asset :=
  store id

/-- Modelled from the spec: partial update of the stored record's `status`
and `metadata` fields; an id with no stored record is left unchanged. -/
def updateAsset (store : AssetStore) (id : String)
    (status : AssetStatus) (md : Metadata) : AssetStore :=
  fun k =>
    if k = id then (store k).map (fun a => { a with status := status, metadata := md })
    else store k

/-- Modelled from the spec: delete-by-id on the blob store. -/
def deleteAsset (store : AssetStore) (id : String) : AssetStore :=
  fun k => if k = id then none else store k

/-- Modelled from the spec: put a full record into the blob store. -/
def setAsset (store : AssetStore) (a : Asset) : AssetStore :=
  fun k => if k = a.id then some a else store k

/-- Shape of a thrown upload error as inspected by the engine:
`error?.message` and the structured code `error?.data?.error?.type`. -/
structure UploadErr where
  message : Option String := none
  dataErrorType : Option String := none
deriving DecidableEq

/-- Result of one remote registration attempt (`apiClient.postWithAuth` on
`/assets/`): either a response carrying `cid` and `nid`, or a thrown error. -/
inductive UploadResult
  | success (cid nid : String)
  | failure (e : UploadErr)
deriving DecidableEq

/-- JavaScript `String.prototype.toLowerCase` restricted to ASCII (the only
characters the classifier's keywords involve): lower-case each character. -/
def jsToLower (s : String) : String := ⟨s.data.map Char.toLower⟩

/-- Contiguous-sublist test: the pattern is a prefix of some suffix. -/
def containsSub (pat : List Char) : List Char → Bool
  | [] => pat.isEmpty
  | c :: rest => pat.isPrefixOf (c :: rest) || containsSub pat rest

/-- JavaScript `String.prototype.includes`: substring containment. -/
def jsIncludes (s pat : String) : Bool :=
  containsSub pat.data s.data

/-- Translation of `UploadService.isInsufficientBalanceError`: true when the
structured error code is `asset_commit_insufficient_fund`, or when the
lower-cased message contains "insufficient" together with one of "fund",
"balance", "credit". -/
def isInsufficientBalanceError (e : UploadErr) : Bool :=
  if e.dataErrorType = some "asset_commit_insufficient_fund" then true
  else
    let message := jsToLower (e.message.getD "")
    jsIncludes message "insufficient" &&
      (jsIncludes message "fund" || jsIncludes message "balance" ||
        jsIncludes message "credit")

/-- State of one `UploadService` instance together with the durable stores it
writes through: the in-memory queue, the re-entrancy flag `isUploading`, the
pause flag, the blob store, the persisted `upload_queue` ID list, and the
`insufficient_credits_dismissed` key of `chrome.storage.local`. -/
structure UploadState where
  uploadQueue : List Asset
  isUploading : Bool
  isPaused : Bool
  assetStore : AssetStore
  queueIds : List String
  insufficientDismissed : Option Bool

/-- Translation of `UploadService.saveQueue`: persist the IDs (and only the
IDs) of the in-memory queue to the small durable store. -/
def saveQueue (w : UploadState) : UploadState :=
  { w with queueIds := w.uploadQueue.map (fun a => a.id) }

/-- Translation of `UploadService.maybeUnpauseForManualRetry`: a manual
retry unpauses the queue when it is paused.  (`setPaused(false)` also kicks
`processQueue`; draining is modelled separately by `processQueue` below.) -/
def maybeUnpauseForManualRetry (w : UploadState) (isManualRetry : Bool) : UploadState :=
  if isManualRetry && w.isPaused then { w with isPaused := false } else w

/-- Translation of `UploadService.addToQueue` up to its final `processQueue`
invocation: return unchanged if the asset id is already queued, otherwise
append, persist the ID list, and maybe unpause for a manual retry. -/
def addToQueue (w : UploadState) (asset : Asset) (isManualRetry : Bool) : UploadState :=
  if w.uploadQueue.any (fun a => decide (a.id = asset.id)) then w
  else
    maybeUnpauseForManualRetry
      (saveQueue { w with uploadQueue := w.uploadQueue ++ [asset] }) isManualRetry

/-- The loop body of `UploadService.addMultipleToQueue`: push each asset not
already in the queue, counting how many were added. -/
def addAllNew (queue : List Asset) : List Asset → List Asset × Nat
  | [] => (queue, 0)
  | a :: rest =>
    if queue.any (fun b => decide (b.id = a.id)) then addAllNew queue rest
    else
      let r := addAllNew (queue ++ [a]) rest
      (r.1, r.2 + 1)

/-- Translation of `UploadService.addMultipleToQueue` up to its final
`processQueue` invocation: batch insertion with the per-asset idempotency
rule, persisting once (and maybe unpausing) only when something was added. -/
def addMultipleToQueue (w : UploadState) (assets : List Asset) (isManualRetry : Bool) :
    UploadState :=
  let r := addAllNew w.uploadQueue assets
  if 0 < r.2 then
    maybeUnpauseForManualRetry (saveQueue { w with uploadQueue := r.1 }) isManualRetry
  else { w with uploadQueue := r.1 }

/-- Translation of `UploadService.removeFromQueue`: filter the asset out and
persist the ID list. -/
def removeFromQueue (w : UploadState) (assetId : String) : UploadState :=
  saveQueue { w with uploadQueue := w.uploadQueue.filter (fun a => decide (a.id ≠ assetId)) }

/-- Observable effects of a drain step, in the order in which the source
awaits them: blob-store writes and deletes, progress broadcasts, completion
broadcasts, ID-list persistence, and clearing of the dismissal flag. -/
inductive StoreEv
  | putAsset (id : String) (status : AssetStatus) (md : Metadata)
  | deleteEv (id : String)
  | progress (id : String) (fraction : Rat) (status : AssetStatus)
  | completion (id : String)
  | saveIds (ids : List String)
  | clearDismissedFlag
deriving DecidableEq

/-- Error-metadata cleanup of `updateAssetStatusToUploading`: the `error`
and `errorType` keys of a previous failed attempt are deleted. -/
def clearedMetadata (a : Asset) : Metadata :=
  { a.metadata with error := none, errorType := none }

/-- The in-memory asset mutation of `updateAssetStatusToUploading`. -/
def toUploading (a : Asset) : Asset :=
  { a with status := AssetStatus.uploading, metadata := clearedMetadata a }

/-- The metadata written by `handleUploadSuccess`: upload timestamp, the
returned content and network identifiers, and progress 1. -/
def uploadedMetadata (a : Asset) (now cid nid : String) : Metadata :=
  { clearedMetadata a with
    uploadedAt := some now, cid := some cid, nid := some nid, uploadProgress := some 1 }

/-- The metadata written by `handleUploadError`: the error message (with the
source's fallback text) and the classification tag, which is set only for an
insufficient-balance failure and left unset otherwise. -/
def failedMetadata (a : Asset) (e : UploadErr) : Metadata :=
  { clearedMetadata a with
    error := some (e.message.getD "Upload failed"),
    errorType := if isInsufficientBalanceError e then some "insufficient_credits" else none }

/-- One iteration of `UploadService.processQueue` past its entry guard:
shift the head asset; mark it `uploading` in the blob store with the error
metadata of any previous attempt cleared (`updateAssetStatusToUploading`);
emit 0% progress; submit it (`api`); on success run `handleUploadSuccess`
(persist `uploaded` + `cid`/`nid`/`uploadedAt`/progress 1, emit 100%
progress, delete from the blob store, broadcast completion); on failure run
`handleUploadError` (classify, possibly pause and clear the dismissal flag,
persist `failed` + error metadata, emit failure progress); finally persist
the shifted ID list and drop the busy flag.  `now` stands for
`new Date().toISOString()`. -/
def drainStep (w : UploadState) (api : Asset → UploadResult) (now : String) :
    UploadState × List StoreEv :=
  match w.uploadQueue with
  | [] => ({ w with isUploading := false }, [])
  | a :: rest =>
    let store1 := updateAsset w.assetStore a.id AssetStatus.uploading (clearedMetadata a)
    let evs0 : List StoreEv :=
      [StoreEv.putAsset a.id AssetStatus.uploading (clearedMetadata a),
       StoreEv.progress a.id 0 AssetStatus.uploading]
    match api (toUploading a) with
    | UploadResult.success cid nid =>
      let md1 := uploadedMetadata a now cid nid
      let store2 := deleteAsset (updateAsset store1 a.id AssetStatus.uploaded md1) a.id
      let ids := rest.map (fun x => x.id)
      ({ w with uploadQueue := rest, isUploading := false, assetStore := store2,
                queueIds := ids },
       evs0 ++
        [StoreEv.putAsset a.id AssetStatus.uploaded md1,
         StoreEv.progress a.id 1 AssetStatus.uploaded,
         StoreEv.deleteEv a.id,
         StoreEv.completion a.id,
         StoreEv.saveIds ids])
    | UploadResult.failure e =>
      let insuff := isInsufficientBalanceError e
      let md1 := failedMetadata a e
      let store2 := updateAsset store1 a.id AssetStatus.failed md1
      let ids := rest.map (fun x => x.id)
      ({ w with uploadQueue := rest, isUploading := false,
                isPaused := insuff || w.isPaused,
                insufficientDismissed := if insuff then none else w.insufficientDismissed,
                assetStore := store2, queueIds := ids },
       evs0 ++ (if insuff then [StoreEv.clearDismissedFlag] else []) ++
        [StoreEv.putAsset a.id AssetStatus.failed md1,
         StoreEv.progress a.id 0 AssetStatus.failed,
         StoreEv.saveIds ids])

/-- One guarded drain step: the entry check of `UploadService.processQueue`
(`isUploading || isPaused || queue empty` is a no-op) followed by one
iteration.  Concurrent invocations while busy are no-ops, not queued. -/
def processQueueStep (w : UploadState) (api : Asset → UploadResult) (now : String) :
    UploadState × List StoreEv :=
  if w.isUploading || w.isPaused || w.uploadQueue.isEmpty then (w, [])
  else drainStep w api now

/-- Translation of the tail-recursive `UploadService.processQueue`: drain
guarded steps one after another ("Continue with next asset"), bounded by
explicit fuel since the source recursion terminates by queue exhaustion. -/
def processQueue : Nat → UploadState → (Asset → UploadResult) → String →
    UploadState × List StoreEv
  | 0, w, _, _ => (w, [])
  | Nat.succ n, w, api, now =>
    if w.isUploading || w.isPaused || w.uploadQueue.isEmpty then (w, [])
    else
      let r := drainStep w api now
      let r2 := processQueue n r.1 api now
      (r2.1, r.2 ++ r2.2)

/-- Translation of `UploadService.restoreQueue`'s resolution loop: each
persisted ID is looked up in the blob store and kept only when the asset
still exists. -/
def restoreQueue (store : AssetStore) (queueIds : List String) : List Asset :=
  queueIds.filterMap (fun id => getAsset store id)

/-- The `UploadService` state right after construction and `restoreQueue`:
fresh flags (`isUploading = false`, `isPaused = false` — pause is not
persisted), the restored queue, and the stores as read. -/
def restoredState (store : AssetStore) (queueIds : List String)
    (dismissed : Option Bool) : UploadState :=
  { uploadQueue := restoreQueue store queueIds,
    isUploading := false,
    isPaused := false,
    assetStore := store,
    queueIds := queueIds,
    insufficientDismissed := dismissed }

/-- User settings record as persisted by `StorageService` (`StoredSettings`):
every field the current schema carries, including the Hunt Mode fields.
TypeScript string-literal unions are modelled as `String`. -/
structure StoredSettings where
  autoUpload : Bool
  includeLocation : Bool
  includeTimestamp : Bool
  includeWebsiteInfo : Bool
  timestampSize : String
  timestampFormat : String
  timestampOpacity : Rat
  timestampPosition : String
  defaultCaptureMode : String
  screenshotFormat : String
  screenshotQuality : Nat
  huntModeEnabled : Bool
  huntModeHashtags : String
  huntModeMessage : String
deriving DecidableEq

/-- Translation of `DEFAULT_SETTINGS` from `StorageService.ts`. -/
def DEFAULT_SETTINGS : StoredSettings :=
  { autoUpload := true,
    includeLocation := false,
    includeTimestamp := true,
    includeWebsiteInfo := true,
    timestampSize := "medium",
    timestampFormat := "full",
    timestampOpacity := 1,
    timestampPosition := "top-left",
    defaultCaptureMode := "visible",
    screenshotFormat := "png",
    screenshotQuality := 90,
    huntModeEnabled := false,
    huntModeHashtags := "#ProofSnapHunt #AIHunt",
    huntModeMessage := "🎯 I spotted this satisfying!" }

/-- A settings record persisted with an older or partial shape: every field
optional, as produced by `JSON.parse` of a record that may predate newly
introduced fields. -/
structure SavedSettings where
  autoUpload : Option Bool := none
  includeLocation : Option Bool := none
  includeTimestamp : Option Bool := none
  includeWebsiteInfo : Option Bool := none
  timestampSize : Option String := none
  timestampFormat : Option String := none
  timestampOpacity : Option Rat := none
  timestampPosition : Option String := none
  defaultCaptureMode : Option String := none
  screenshotFormat : Option String := none
  screenshotQuality : Option Nat := none
  huntModeEnabled : Option Bool := none
  huntModeHashtags : Option String := none
  huntModeMessage : Option String := none
deriving DecidableEq

/-- The JavaScript spread `{ ...DEFAULT_SETTINGS, ...saved }` of
`StorageService.getSettings`: fields present in the saved record override the
defaults, absent fields keep their default values. -/
def mergeSettings (saved : SavedSettings) : StoredSettings :=
  { autoUpload := saved.autoUpload.getD DEFAULT_SETTINGS.autoUpload,
    includeLocation := saved.includeLocation.getD DEFAULT_SETTINGS.includeLocation,
    includeTimestamp := saved.includeTimestamp.getD DEFAULT_SETTINGS.includeTimestamp,
    includeWebsiteInfo := saved.includeWebsiteInfo.getD DEFAULT_SETTINGS.includeWebsiteInfo,
    timestampSize := saved.timestampSize.getD DEFAULT_SETTINGS.timestampSize,
    timestampFormat := saved.timestampFormat.getD DEFAULT_SETTINGS.timestampFormat,
    timestampOpacity := saved.timestampOpacity.getD DEFAULT_SETTINGS.timestampOpacity,
    timestampPosition := saved.timestampPosition.getD DEFAULT_SETTINGS.timestampPosition,
    defaultCaptureMode := saved.defaultCaptureMode.getD DEFAULT_SETTINGS.defaultCaptureMode,
    screenshotFormat := saved.screenshotFormat.getD DEFAULT_SETTINGS.screenshotFormat,
    screenshotQuality := saved.screenshotQuality.getD DEFAULT_SETTINGS.screenshotQuality,
    huntModeEnabled := saved.huntModeEnabled.getD DEFAULT_SETTINGS.huntModeEnabled,
    huntModeHashtags := saved.huntModeHashtags.getD DEFAULT_SETTINGS.huntModeHashtags,
    huntModeMessage := saved.huntModeMessage.getD DEFAULT_SETTINGS.huntModeMessage }

/-- Observable content of the `user_settings` key of `chrome.storage.local`:
the key is absent, or it holds a JSON string that parses to a (possibly
older-shaped) settings record, or it holds a string `JSON.parse` rejects. -/
inductive SettingsCell
  | absent
  | record (saved : SavedSettings)
  | corrupted
deriving DecidableEq

/-- Translation of `StorageService.getSettings`: return defaults when the key
is absent; merge a parsed record with the defaults; `JSON.parse` of a
corrupted value throws, and `getSettings` has no handler for it, so the
rejection propagates to the caller. -/
def getSettings : SettingsCell → Except String StoredSettings
  | SettingsCell.absent => Except.ok DEFAULT_SETTINGS
  | SettingsCell.record saved => Except.ok (mergeSettings saved)
  | SettingsCell.corrupted => Except.error "JSON.parse failed"

/-- Minimal JSON value grammar needed by the signed-metadata document. -/
inductive JVal
  | str (s : String)
  | num (q : Rat)
deriving DecidableEq

/-- String escaping of `JSON.stringify` restricted to the characters that
need it here (quote and backslash; control characters are not modelled). -/
def jsonEscape (s : String) : String :=
  s.data.foldl
    (fun acc c =>
      if c = '"' then acc ++ "\\\""
      else if c = '\\' then acc ++ "\\\\"
      else acc ++ String.singleton c) ""

/-- Rendering of a JSON scalar.  Integer-valued numbers print without a
denominator; the exact float formatting of JavaScript is not modelled, only
that rendering is a deterministic function of the value. -/
def renderJVal : JVal → String
  | JVal.str s => "\"" ++ jsonEscape s ++ "\""
  | JVal.num q => if q.den = 1 then toString q.num else toString q

/-- Rendering of `JSON.stringify(obj, keys, 2)`: the key list dictates member
order; two-space indentation. -/
def renderPairs (ps : List (String × JVal)) : String :=
  match ps with
  | [] => "\x7b\x7d"
  | _ =>
    "\x7b\n" ++
      String.intercalate ",\n"
        (ps.map (fun kv => "  \"" ++ jsonEscape kv.1 ++ "\": " ++ renderJVal kv.2)) ++
      "\n\x7d"

/-- The members of the signed-metadata document in the insertion order of
`UploadService.createSignedMetadata`: the constant spec marker and recorder,
the capture timestamp, then location fields when `gpsLocation` is set and
web-source fields when `sourceWebsite` is set. -/
def signedMetadataPairs (a : Asset) : List (String × JVal) :=
  [("spec_version", JVal.str "2.0.0"),
   ("recorder", JVal.str "ProofSnap Browser Extension"),
   ("created_at", JVal.num a.createdAt)] ++
  (match a.gpsLocation with
   | some g => [("location_latitude", JVal.num g.latitude),
                ("location_longitude", JVal.num g.longitude)]
   | none => []) ++
  (match a.sourceWebsite with
   | some sw => [("web_source_url", JVal.str sw.url),
                 ("web_source_title", JVal.str sw.title)]
   | none => [])

/-- Key comparison used by `Object.keys(metadata).sort()`: code-unit order,
which on these ASCII keys coincides with the `String` order. -/
def keyLE (x y : String × JVal) : Prop := x.1 ≤ y.1

instance : DecidableRel keyLE := fun x y => inferInstanceAs (Decidable (x.1 ≤ y.1))

instance : IsTotal (String × JVal) keyLE := ⟨fun a b => le_total a.1 b.1⟩

instance : IsTrans (String × JVal) keyLE := ⟨fun _ _ _ h1 h2 => le_trans h1 h2⟩

/-- Translation of `UploadService.createSignedMetadata`: build the metadata
members, sort the keys, and serialize with sorted key order and two-space
indentation. -/
def createSignedMetadata (a : Asset) : String :=
  renderPairs (List.insertionSort keyLE (signedMetadataPairs a))

/-- Key list of the signed-metadata document, in serialized order. -/
def signedMetadataKeys (a : Asset) : List String :=
  (List.insertionSort keyLE (signedMetadataPairs a)).map (fun kv => kv.1)

/-- Region selection coordinates after scaling by the device pixel ratio and
rounding (`Math.round`). -/
structure SelCoordinates where
  x : Int
  y : Int
  width : Int
  height : Int
deriving DecidableEq

/-- Viewport-space selection rectangle (unscaled). -/
structure ViewportRect where
  x : Rat
  y : Rat
  width : Rat
  height : Rat
deriving DecidableEq

/-- Payload of the `SELECTION_COMPLETE` message sent by the selection
overlay: either a cancellation with a reason, or the selected coordinates. -/
inductive SelPayload
  | cancelled (reason : String)
  | completed (coordinates : SelCoordinates) (viewportCoordinates : ViewportRect)
deriving DecidableEq

/-- JavaScript `Math.round`: round half toward positive infinity. -/
def jsRound (q : Rat) : Int := Int.floor (q + 1 / 2)

/-- Translation of `handleMouseUp` in `selection-overlay.ts` once a selection
is in progress: compute the drag rectangle from the start and end points; a
rectangle under 10 pixels in either dimension is reported as the
cancellation "Selection too small"; otherwise the coordinates are scaled by
the device pixel ratio, rounded, and reported as completed. -/
def handleMouseUp (startX startY endX endY dpr : Rat) : SelPayload :=
  let left := min startX endX
  let top := min startY endY
  let width := |endX - startX|
  let height := |endY - startY|
  if width < 10 ∨ height < 10 then SelPayload.cancelled "Selection too small"
  else
    SelPayload.completed
      { x := jsRound (left * dpr), y := jsRound (top * dpr),
        width := jsRound (width * dpr), height := jsRound (height * dpr) }
      { x := left, y := top, width := width, height := height }

/-- Terminal outcome of a capture request as resolved to the initiating
caller: a created asset, a first-class cancellation, or an error. -/
inductive CaptureOutcome
  | success (assetId : String)
  | cancelled (reason : String)
  | error (message : String)
deriving DecidableEq

/-- Translation of the dispatch structure of `handleSelectionComplete` in the
background service worker: a cancelled payload resolves the pending capture
as a cancellation with the payload's reason and returns before any capture
work, leaving the blob store untouched; a completed payload proceeds to the
capture pipeline (tab capture, crop/watermark, persistence), abstracted here
as the continuation `capture`. -/
def handleSelectionComplete (payload : SelPayload) (store : AssetStore)
    (capture : SelCoordinates → AssetStore → CaptureOutcome × AssetStore) :
    CaptureOutcome × AssetStore :=
  match payload with
  | SelPayload.cancelled reason => (CaptureOutcome.cancelled reason, store)
  | SelPayload.completed coords _ => capture coords store

/-- Projection of a completion broadcast out of the event trace. -/
def completionEvId : StoreEv → Option String
  | StoreEv.completion i => some i
  | _ => none

/-- Projection of a blob-store write that records status `uploaded`. -/
def uploadedPutEvId : StoreEv → Option String
  | StoreEv.putAsset i AssetStatus.uploaded _ => some i
  | _ => none

/-- Synchronization invariant of the durable queue: the persisted ID list is
exactly the ID sequence of the in-memory queue. -/
def queueInv (w : UploadState) : Prop :=
  w.queueIds = w.uploadQueue.map (fun a => a.id)

/-- Concrete draft asset used to evaluate the theorems below. -/
def assetA : Asset := { id := "a1", uri := "data:image/png;base64,AA" }

/-- Second concrete draft asset. -/
def assetB : Asset := { id := "b2", uri := "data:image/png;base64,BB" }

/-- Concrete previously-failed asset (insufficient credits recorded). -/
def assetFailedA : Asset :=
  { id := "a1", uri := "data:image/png;base64,AA", status := AssetStatus.failed,
    metadata := { error := some "Insufficient funds",
                  errorType := some "insufficient_credits" } }

/-- Empty blob store. -/
def emptyStore : AssetStore := fun _ => none

/-- Concrete blob store holding `assetA` and `assetB` under their own IDs. -/
def wfStore : AssetStore :=
  fun k => if k = "a1" then some assetA else if k = "b2" then some assetB else none

/-- Concrete engine state with both assets queued and synced ID list. -/
def stateAB : UploadState :=
  { uploadQueue := [assetA, assetB], isUploading := false, isPaused := false,
    assetStore := wfStore, queueIds := ["a1", "b2"], insufficientDismissed := none }

/-- Concrete paused engine state holding the failed asset. -/
def pausedStateA : UploadState :=
  { uploadQueue := [assetFailedA], isUploading := false, isPaused := true,
    assetStore := wfStore, queueIds := ["a1"], insufficientDismissed := none }

/-- Remote client stub that accepts every submission. -/
def apiAllSuccess : Asset → UploadResult :=
  fun _ => UploadResult.success "cid1" "nid1"

/-- Concrete insufficient-balance error (message-pattern form). -/
def insuffErr : UploadErr := { message := some "Insufficient funds for commit" }

/-- Concrete ordinary network error. -/
def plainErr : UploadErr := { message := some "Network unreachable" }

/-- Remote client stub that rejects every submission with `insuffErr`. -/
def apiInsuff : Asset → UploadResult := fun _ => UploadResult.failure insuffErr

/-- Concrete asset carrying a GPS location and no source website. -/
def assetGps : Asset :=
  { id := "g7", uri := "data:image/png;base64,GG", createdAt := 1700000000000,
    gpsLocation := some { latitude := 25, longitude := 121, accuracy := 5,
                          timestamp := 1700000000000 } }

/-- A drain step on a non-empty queue always emits events (at least the
initial `uploading` write and 0% progress). -/
theorem drainStep_events_ne_nil (w : UploadState) (x : Asset) (xs : List Asset)
    (api : Asset → UploadResult) (now : String) (h : w.uploadQueue = x :: xs) :
    (drainStep w api now).2 ≠ [] := by
  simp only [drainStep, h]
  cases hres : api (toUploading x) with
  | success cid nid => simp [hres]
  | failure e => simp [hres]

/-- C6: enqueuing an asset whose id is already present in the queue is a
no-op — the state (hence queue contents and length) is unchanged for the
single enqueue, and the batch enqueue skips such an asset, applying the rule
per asset. -/
theorem enqueue_idempotent_on_present (w : UploadState) (a : Asset) (retry : Bool)
    (rest : List Asset) (h : a.id ∈ w.uploadQueue.map (fun b => b.id)) :
    addToQueue w a retry = w ∧
      addMultipleToQueue w (a :: rest) retry = addMultipleToQueue w rest retry := by
  have hany : w.uploadQueue.any (fun b => decide (b.id = a.id)) = true := by
    simp only [List.any_eq_true, decide_eq_true_eq]
    obtain ⟨b, hb, hid⟩ := List.mem_map.mp h
    exact ⟨b, hb, hid⟩
  constructor
  · simp [addToQueue, hany]
  · simp [addMultipleToQueue, addAllNew, hany]

/-- Witness: re-enqueuing the already queued `assetA` into `stateAB` is a
no-op, both singly and as a batch. -/
theorem enqueue_idempotent_on_present_witness :
    addToQueue stateAB assetA true = stateAB ∧
      addMultipleToQueue stateAB [assetA] true = addMultipleToQueue stateAB [] true :=
  enqueue_idempotent_on_present stateAB assetA true [] (by decide)

/-- C5 counterexample: with the engine paused and the failed asset still in
the queue, a manual-retry enqueue of that same asset returns on the
duplicate check before `maybeUnpauseForManualRetry` runs, so the engine
stays paused — refuting "unconditionally unpaused regardless of whether the
asset was already present". -/
theorem manual_retry_present_asset_stays_paused :
    (addToQueue pausedStateA assetFailedA true).isPaused = true := by decide

/-- C5 amended: a manual-retry enqueue of an asset not already present
appends it, unpauses the engine whatever its pause state (no balance state
is consulted), and restarts draining (the next guarded drain step fires). -/
theorem manual_retry_unpauses_on_new_enqueue (w : UploadState) (a : Asset)
    (api : Asset → UploadResult) (now : String)
    (h : a.id ∉ w.uploadQueue.map (fun b => b.id)) :
    (addToQueue w a true).isPaused = false ∧
      (addToQueue w a true).uploadQueue = w.uploadQueue ++ [a] ∧
      (w.isUploading = false →
        (processQueueStep (addToQueue w a true) api now).2 ≠ []) := by
  have hany : w.uploadQueue.any (fun b => decide (b.id = a.id)) = false := by
    rw [List.any_eq_false]
    intro b hb
    simp only [decide_eq_true_eq]
    intro hid
    exact h (List.mem_map.mpr ⟨b, hb, hid⟩)
  have hpaused : (addToQueue w a true).isPaused = false := by
    cases hp : w.isPaused <;>
      simp [addToQueue, hany, maybeUnpauseForManualRetry, saveQueue, hp]
  have hqueue : (addToQueue w a true).uploadQueue = w.uploadQueue ++ [a] := by
    cases hp : w.isPaused <;>
      simp [addToQueue, hany, maybeUnpauseForManualRetry, saveQueue, hp]
  refine ⟨hpaused, hqueue, ?_⟩
  intro hu
  have hup : (addToQueue w a true).isUploading = false := by
    cases hp : w.isPaused <;>
      simp [addToQueue, hany, maybeUnpauseForManualRetry, saveQueue, hp, hu]
  obtain ⟨x, xs, hcons⟩ : ∃ x xs, (addToQueue w a true).uploadQueue = x :: xs := by
    rw [hqueue]
    cases q : w.uploadQueue with
    | nil => exact ⟨a, [], by simp⟩
    | cons y ys => exact ⟨y, ys ++ [a], by simp⟩
  have hguard : ((addToQueue w a true).isUploading || (addToQueue w a true).isPaused ||
      (addToQueue w a true).uploadQueue.isEmpty) = false := by
    simp [hup, hpaused, hcons]
  rw [processQueueStep, hguard]
  simp only [Bool.false_eq_true, if_false]
  exact drainStep_events_ne_nil _ x xs api now hcons

/-- Witness: enqueuing fresh `assetB` into the paused single-asset state as
a manual retry unpauses it, appends, and fires a drain step. -/
theorem manual_retry_unpauses_on_new_enqueue_witness :
    (addToQueue pausedStateA assetB true).isPaused = false ∧
      (addToQueue pausedStateA assetB true).uploadQueue =
        pausedStateA.uploadQueue ++ [assetB] ∧
      (pausedStateA.isUploading = false →
        (processQueueStep (addToQueue pausedStateA assetB true) apiAllSuccess "t").2 ≠ []) :=
  manual_retry_unpauses_on_new_enqueue pausedStateA assetB apiAllSuccess "t" (by decide)

/-- C9 counterexample: a corrupted `user_settings` value makes
`StorageService.getSettings` propagate the `JSON.parse` rejection — it does
not fall back to the defaults, refuting the corruption case of the claim. -/
theorem getSettings_corrupted_errors :
    getSettings SettingsCell.corrupted = Except.error "JSON.parse failed" := rfl

/-- C9 amended: when the settings record is absent the read returns the
defaults, and when a (possibly partial) record is persisted the read returns
a fully-populated object in which saved fields override the defaults and
missing fields take their default values (shown on the claim's example
field `autoUpload` and on the spec's scenario record); only an unparseable
record fails instead of falling back. -/
theorem settings_read_merges_defaults (saved : SavedSettings) :
    getSettings SettingsCell.absent = Except.ok DEFAULT_SETTINGS ∧
      getSettings (SettingsCell.record saved) = Except.ok (mergeSettings saved) ∧
      (∀ b, saved.autoUpload = some b → (mergeSettings saved).autoUpload = b) ∧
      (saved.autoUpload = none →
        (mergeSettings saved).autoUpload = DEFAULT_SETTINGS.autoUpload) ∧
      getSettings (SettingsCell.record { autoUpload := some false }) =
        Except.ok { DEFAULT_SETTINGS with autoUpload := false } := by
  refine ⟨rfl, rfl, ?_, ?_, rfl⟩
  · intro b hb
    simp [mergeSettings, hb]
  · intro hb
    simp [mergeSettings, hb]

/-- Witness: the spec scenario — a store holding only `autoUpload = false`
reads back as `autoUpload = false` with every other field defaulted. -/
theorem settings_read_merges_defaults_witness :
    (mergeSettings { autoUpload := some false }).autoUpload = false ∧
      getSettings (SettingsCell.record { autoUpload := some false }) =
        Except.ok { DEFAULT_SETTINGS with autoUpload := false } :=
  ⟨(settings_read_merges_defaults { autoUpload := some false }).2.2.1 false rfl,
   (settings_read_merges_defaults { autoUpload := some false }).2.2.2.2⟩

/-- C10: a completed region selection below 10 pixels in either dimension is
reported by the overlay as the cancellation "Selection too small", and the
background worker resolves any cancelled selection payload as a first-class
cancelled outcome — a constructor distinct from the error outcome — without
running the capture pipeline, so the blob store is unchanged and no asset is
created. -/
theorem small_selection_is_cancelled (startX startY endX endY dpr : Rat)
    (store : AssetStore)
    (capture : SelCoordinates → AssetStore → CaptureOutcome × AssetStore)
    (h : |endX - startX| < 10 ∨ |endY - startY| < 10) :
    handleMouseUp startX startY endX endY dpr =
        SelPayload.cancelled "Selection too small" ∧
      handleSelectionComplete (handleMouseUp startX startY endX endY dpr) store capture =
        (CaptureOutcome.cancelled "Selection too small", store) ∧
      (∀ r m, CaptureOutcome.cancelled r ≠ CaptureOutcome.error m) := by
  have h1 : handleMouseUp startX startY endX endY dpr =
      SelPayload.cancelled "Selection too small" := by
    rw [handleMouseUp]
    exact if_pos h
  refine ⟨h1, ?_, ?_⟩
  · rw [h1]
    rfl
  · intro r m hc
    cases hc

/-- Witness: the spec scenario — a 5 by 50 pixel drag (device pixel ratio 1)
cancels with "Selection too small" and leaves an empty blob store empty. -/
theorem small_selection_is_cancelled_witness :
    handleMouseUp 0 0 5 50 1 = SelPayload.cancelled "Selection too small" ∧
      handleSelectionComplete (handleMouseUp 0 0 5 50 1) emptyStore
          (fun _ st => (CaptureOutcome.error "capture ran", st)) =
        (CaptureOutcome.cancelled "Selection too small", emptyStore) ∧
      (∀ r m, CaptureOutcome.cancelled r ≠ CaptureOutcome.error m) :=
  small_selection_is_cancelled 0 0 5 50 1 emptyStore
    (fun _ st => (CaptureOutcome.error "capture ran", st))
    (Or.inl (by norm_num))

/-- Key membership in the serialized document is key membership in the
unsorted member list (sorting is a permutation). -/
theorem signedMetadataKeys_mem (a : Asset) (k : String) :
    k ∈ signedMetadataKeys a ↔ k ∈ (signedMetadataPairs a).map (fun kv => kv.1) := by
  unfold signedMetadataKeys
  exact ((List.perm_insertionSort keyLE (signedMetadataPairs a)).map
    (fun kv => kv.1)).mem_iff

/-- C8: the signed-metadata document is a deterministic pure function of the
asset — equal assets give byte-for-byte identical strings — its keys are
serialized in sorted order, the spec-version marker, recorder identifier and
capture timestamp are always present, and the geolocation / web-source keys
are present exactly when the asset carries those fields. -/
theorem signed_metadata_deterministic_sorted (a a2 : Asset) :
    (a = a2 → createSignedMetadata a = createSignedMetadata a2) ∧
      List.Sorted (fun x y => x ≤ y) (signedMetadataKeys a) ∧
      "spec_version" ∈ signedMetadataKeys a ∧
      "recorder" ∈ signedMetadataKeys a ∧
      "created_at" ∈ signedMetadataKeys a ∧
      ("location_latitude" ∈ signedMetadataKeys a ↔ a.gpsLocation.isSome = true) ∧
      ("location_longitude" ∈ signedMetadataKeys a ↔ a.gpsLocation.isSome = true) ∧
      ("web_source_url" ∈ signedMetadataKeys a ↔ a.sourceWebsite.isSome = true) ∧
      ("web_source_title" ∈ signedMetadataKeys a ↔ a.sourceWebsite.isSome = true) := by
  refine ⟨fun h => h ▸ rfl, ?_, ?_, ?_, ?_, ?_, ?_, ?_, ?_⟩
  · have hs : List.Sorted keyLE (List.insertionSort keyLE (signedMetadataPairs a)) :=
      List.sorted_insertionSort keyLE (signedMetadataPairs a)
    unfold signedMetadataKeys
    exact List.pairwise_map.mpr hs
  all_goals
    rw [signedMetadataKeys_mem]
    rcases hg : a.gpsLocation with _ | g <;> rcases hw : a.sourceWebsite with _ | sw <;>
      simp [signedMetadataPairs, hg, hw]

/-- Witness: on a concrete asset carrying a GPS location but no source
website, the keys come out sorted, the mandatory keys are present, the
location key is present and the web-source key absent. -/
theorem signed_metadata_deterministic_sorted_witness :
    createSignedMetadata assetGps = createSignedMetadata assetGps ∧
      List.Sorted (fun x y => x ≤ y) (signedMetadataKeys assetGps) ∧
      "spec_version" ∈ signedMetadataKeys assetGps ∧
      ("location_latitude" ∈ signedMetadataKeys assetGps ↔
        assetGps.gpsLocation.isSome = true) ∧
      ("web_source_url" ∈ signedMetadataKeys assetGps ↔
        assetGps.sourceWebsite.isSome = true) :=
  ⟨(signed_metadata_deterministic_sorted assetGps assetGps).1 rfl,
   (signed_metadata_deterministic_sorted assetGps assetGps).2.1,
   (signed_metadata_deterministic_sorted assetGps assetGps).2.2.1,
   (signed_metadata_deterministic_sorted assetGps assetGps).2.2.2.2.2.1,
   (signed_metadata_deterministic_sorted assetGps assetGps).2.2.2.2.2.2.2.1⟩

/-- When the batch-insert loop added nothing, the queue is unchanged. -/
theorem addAllNew_count_zero (assets : List Asset) :
    ∀ queue, (addAllNew queue assets).2 = 0 → (addAllNew queue assets).1 = queue := by
  induction assets with
  | nil => intro queue _; rfl
  | cons a rest ih =>
    intro queue h
    by_cases hd : queue.any (fun b => decide (b.id = a.id)) = true
    · rw [addAllNew, if_pos hd] at h ⊢
      exact ih queue h
    · rw [addAllNew, if_neg hd] at h
      simp at h

/-- The persisted-ID invariant holds after `saveQueue` by construction. -/
theorem queueInv_saveQueue (w : UploadState) : queueInv (saveQueue w) := rfl

/-- `maybeUnpauseForManualRetry` touches only the pause flag. -/
theorem queueInv_maybeUnpause (w : UploadState) (r : Bool) (h : queueInv w) :
    queueInv (maybeUnpauseForManualRetry w r) := by
  unfold maybeUnpauseForManualRetry
  split
  · exact h
  · exact h

/-- C4: the persisted upload-queue ID list equals the ID sequence of the
in-memory queue after every enqueue (single or batch), every removal, and
every drain-step completion — each operation re-persists the list before
returning, so a synced state stays synced and removals and executed drain
steps re-establish the equality unconditionally. -/
theorem queue_ids_stay_synced :
    (∀ (w : UploadState) (a : Asset) (r : Bool), queueInv w →
        queueInv (addToQueue w a r)) ∧
      (∀ (w : UploadState) (l : List Asset) (r : Bool), queueInv w →
        queueInv (addMultipleToQueue w l r)) ∧
      (∀ (w : UploadState) (i : String), queueInv (removeFromQueue w i)) ∧
      (∀ (w : UploadState) (api : Asset → UploadResult) (now : String), queueInv w →
        queueInv (processQueueStep w api now).1) := by
  refine ⟨?_, ?_, ?_, ?_⟩
  · intro w a r h
    unfold addToQueue
    split
    · exact h
    · exact queueInv_maybeUnpause _ r (queueInv_saveQueue _)
  · intro w l r h
    simp only [addMultipleToQueue]
    split
    · exact queueInv_maybeUnpause _ r (queueInv_saveQueue _)
    · rename_i hc
      have hz : (addAllNew w.uploadQueue l).2 = 0 := by omega
      have h1 := addAllNew_count_zero l w.uploadQueue hz
      unfold queueInv
      rw [h1]
      exact h
  · intro w i
    exact queueInv_saveQueue _
  · intro w api now h
    unfold processQueueStep
    split
    · exact h
    · rcases hq : w.uploadQueue with _ | ⟨a, rest⟩
      · simp only [drainStep, hq]
        unfold queueInv at h ⊢
        rw [hq] at h
        exact h
      · cases hres : api (toUploading a) with
        | success cid nid =>
          simp only [drainStep, hq, hres]
          simp [queueInv]
        | failure e =>
          simp only [drainStep, hq, hres]
          simp [queueInv]

/-- Witness: starting from the synced `stateAB`, each operation leaves the
persisted ID list equal to the in-memory queue's IDs. -/
theorem queue_ids_stay_synced_witness :
    queueInv (addToQueue stateAB assetGps false) ∧
      queueInv (addMultipleToQueue stateAB [assetGps] false) ∧
      queueInv (removeFromQueue stateAB "a1") ∧
      queueInv (processQueueStep stateAB apiAllSuccess "t").1 :=
  ⟨queue_ids_stay_synced.1 stateAB assetGps false rfl,
   queue_ids_stay_synced.2.1 stateAB [assetGps] false rfl,
   queue_ids_stay_synced.2.2.1 stateAB "a1",
   queue_ids_stay_synced.2.2.2 stateAB apiAllSuccess "t" rfl⟩

/-- The classifier fires exactly on the structured code
`asset_commit_insufficient_fund` or on a lower-cased message containing
"insufficient" together with one of "fund", "balance", "credit". -/
theorem isInsufficientBalanceError_iff (e : UploadErr) :
    isInsufficientBalanceError e = true ↔
      (e.dataErrorType = some "asset_commit_insufficient_fund" ∨
        (jsIncludes (jsToLower (e.message.getD "")) "insufficient" = true ∧
          (jsIncludes (jsToLower (e.message.getD "")) "fund" = true ∨
            jsIncludes (jsToLower (e.message.getD "")) "balance" = true ∨
            jsIncludes (jsToLower (e.message.getD "")) "credit" = true))) := by
  by_cases hc : e.dataErrorType = some "asset_commit_insufficient_fund"
  · simp [isInsufficientBalanceError, hc]
  · simp only [isInsufficientBalanceError, hc, if_false, Bool.and_eq_true,
      Bool.or_eq_true, false_or]
    tauto

/-- Behavior of a failing drain step keyed on the classifier: pause, flag
clear, and the recorded `errorType` on an insufficient-balance failure;
no pause, untouched flag, and unset `errorType` otherwise. -/
theorem drain_failure_behavior (w : UploadState) (a a0 : Asset)
    (rest : List Asset) (api : Asset → UploadResult) (now : String) (e : UploadErr)
    (hq : w.uploadQueue = a :: rest) (hu : w.isUploading = false)
    (hp : w.isPaused = false) (hstore : w.assetStore a.id = some a0)
    (hres : api (toUploading a) = UploadResult.failure e) :
    (isInsufficientBalanceError e = true →
      ((processQueueStep w api now).1.isPaused = true ∧
        (processQueueStep w api now).1.insufficientDismissed = none ∧
        ∃ b, (processQueueStep w api now).1.assetStore a.id = some b ∧
          b.status = AssetStatus.failed ∧
          b.metadata.errorType = some "insufficient_credits")) ∧
      (isInsufficientBalanceError e = false →
        ((processQueueStep w api now).1.isPaused = false ∧
          (processQueueStep w api now).1.insufficientDismissed =
            w.insufficientDismissed ∧
          ∃ b, (processQueueStep w api now).1.assetStore a.id = some b ∧
            b.status = AssetStatus.failed ∧ b.metadata.errorType = none)) := by
  have hguard : (w.isUploading || w.isPaused || w.uploadQueue.isEmpty) = false := by
    simp [hu, hp, hq]
  have hstep : processQueueStep w api now = drainStep w api now := by
    rw [processQueueStep, hguard]
    simp
  rw [hstep]
  constructor
  · intro hins
    simp only [drainStep, hq, hres, hins]
    refine ⟨by simp, by simp, ?_⟩
    refine ⟨{ a0 with status := AssetStatus.failed, metadata := failedMetadata a e }, ?_, rfl, ?_⟩
    · simp [updateAsset, hstore]
    · simp [failedMetadata, hins]
  · intro hins
    simp only [drainStep, hq, hres, hins]
    refine ⟨by simp [hp], by simp, ?_⟩
    refine ⟨{ a0 with status := AssetStatus.failed, metadata := failedMetadata a e }, ?_, rfl, ?_⟩
    · simp [updateAsset, hstore]
    · simp [failedMetadata, hins]

/-- C3: on an upload failure whose error carries the structured code
`asset_commit_insufficient_fund`, or whose message contains "insufficient"
together with one of "fund", "balance", "credit" (case-insensitively, via
lower-casing), the drain step pauses the engine, clears the user-dismissed
insufficient-credits notification flag, and records the asset as `failed`
with `errorType = insufficient_credits`; on every other failure the engine
does not pause, the flag is untouched, and the recorded `errorType` is
unset. -/
theorem insufficient_failure_pauses_engine (w : UploadState) (a a0 : Asset)
    (rest : List Asset) (api : Asset → UploadResult) (now : String) (e : UploadErr)
    (hq : w.uploadQueue = a :: rest) (hu : w.isUploading = false)
    (hp : w.isPaused = false) (hstore : w.assetStore a.id = some a0)
    (hres : api (toUploading a) = UploadResult.failure e) :
    ((e.dataErrorType = some "asset_commit_insufficient_fund" ∨
        (jsIncludes (jsToLower (e.message.getD "")) "insufficient" = true ∧
          (jsIncludes (jsToLower (e.message.getD "")) "fund" = true ∨
            jsIncludes (jsToLower (e.message.getD "")) "balance" = true ∨
            jsIncludes (jsToLower (e.message.getD "")) "credit" = true))) →
      ((processQueueStep w api now).1.isPaused = true ∧
        (processQueueStep w api now).1.insufficientDismissed = none ∧
        ∃ b, (processQueueStep w api now).1.assetStore a.id = some b ∧
          b.status = AssetStatus.failed ∧
          b.metadata.errorType = some "insufficient_credits")) ∧
      (¬(e.dataErrorType = some "asset_commit_insufficient_fund" ∨
          (jsIncludes (jsToLower (e.message.getD "")) "insufficient" = true ∧
            (jsIncludes (jsToLower (e.message.getD "")) "fund" = true ∨
              jsIncludes (jsToLower (e.message.getD "")) "balance" = true ∨
              jsIncludes (jsToLower (e.message.getD "")) "credit" = true))) →
        ((processQueueStep w api now).1.isPaused = false ∧
          (processQueueStep w api now).1.insufficientDismissed =
            w.insufficientDismissed ∧
          ∃ b, (processQueueStep w api now).1.assetStore a.id = some b ∧
            b.status = AssetStatus.failed ∧ b.metadata.errorType = none)) := by
  constructor
  · intro hcond
    exact (drain_failure_behavior w a a0 rest api now e hq hu hp hstore hres).1
      ((isInsufficientBalanceError_iff e).mpr hcond)
  · intro hcond
    refine (drain_failure_behavior w a a0 rest api now e hq hu hp hstore hres).2 ?_
    rcases hb : isInsufficientBalanceError e with _ | _
    · rfl
    · exact absurd ((isInsufficientBalanceError_iff e).mp hb) hcond

/-- Witness: a message-classified insufficient-balance failure on the queued
`assetA` pauses the engine, clears the dismissal flag, and records
`failed` / `insufficient_credits` in the blob store. -/
theorem insufficient_failure_pauses_engine_witness :
    (processQueueStep stateAB apiInsuff "t").1.isPaused = true ∧
      (processQueueStep stateAB apiInsuff "t").1.insufficientDismissed = none ∧
      ∃ b, (processQueueStep stateAB apiInsuff "t").1.assetStore assetA.id = some b ∧
        b.status = AssetStatus.failed ∧
        b.metadata.errorType = some "insufficient_credits" :=
  (insufficient_failure_pauses_engine stateAB assetA assetA [assetB] apiInsuff "t"
    insuffErr rfl rfl rfl (by decide) rfl).1 (Or.inr (by decide))

/-- C2: a drain step whose upload succeeds performs, in order: the
`uploading` status write, the 0% progress broadcast, the blob-store write
persisting status `uploaded` together with the returned identifiers
(`cid` / `nid`, with progress 1 and the upload timestamp), the 100% progress
broadcast, the deletion of the asset from the blob store, the completion
broadcast, and the ID-list persistence — so the status and identifiers are
durably recorded before the delete, the completion event follows the
delete, and afterwards the asset is absent from the blob store. -/
theorem upload_success_persist_then_delete (w : UploadState) (a : Asset)
    (rest : List Asset) (api : Asset → UploadResult) (now cid nid : String)
    (hq : w.uploadQueue = a :: rest) (hu : w.isUploading = false)
    (hp : w.isPaused = false)
    (hres : api (toUploading a) = UploadResult.success cid nid) :
    (processQueueStep w api now).2 =
        [StoreEv.putAsset a.id AssetStatus.uploading (clearedMetadata a),
         StoreEv.progress a.id 0 AssetStatus.uploading,
         StoreEv.putAsset a.id AssetStatus.uploaded (uploadedMetadata a now cid nid),
         StoreEv.progress a.id 1 AssetStatus.uploaded,
         StoreEv.deleteEv a.id,
         StoreEv.completion a.id,
         StoreEv.saveIds (rest.map (fun x => x.id))] ∧
      (uploadedMetadata a now cid nid).cid = some cid ∧
      (uploadedMetadata a now cid nid).nid = some nid ∧
      (uploadedMetadata a now cid nid).uploadProgress = some 1 ∧
      (processQueueStep w api now).1.assetStore a.id = none := by
  have hguard : (w.isUploading || w.isPaused || w.uploadQueue.isEmpty) = false := by
    simp [hu, hp, hq]
  have hstep : processQueueStep w api now = drainStep w api now := by
    rw [processQueueStep, hguard]
    simp
  rw [hstep]
  simp only [drainStep, hq, hres]
  refine ⟨by simp, rfl, rfl, rfl, ?_⟩
  simp [deleteAsset]

/-- Witness: the successful upload of queued `assetA` emits exactly the
persist-uploaded / delete / completion sequence and removes `assetA` from
the blob store. -/
theorem upload_success_persist_then_delete_witness :
    (processQueueStep stateAB apiAllSuccess "t").2 =
        [StoreEv.putAsset assetA.id AssetStatus.uploading (clearedMetadata assetA),
         StoreEv.progress assetA.id 0 AssetStatus.uploading,
         StoreEv.putAsset assetA.id AssetStatus.uploaded
           (uploadedMetadata assetA "t" "cid1" "nid1"),
         StoreEv.progress assetA.id 1 AssetStatus.uploaded,
         StoreEv.deleteEv assetA.id,
         StoreEv.completion assetA.id,
         StoreEv.saveIds ([assetB].map (fun x => x.id))] ∧
      (uploadedMetadata assetA "t" "cid1" "nid1").cid = some "cid1" ∧
      (uploadedMetadata assetA "t" "cid1" "nid1").nid = some "nid1" ∧
      (uploadedMetadata assetA "t" "cid1" "nid1").uploadProgress = some 1 ∧
      (processQueueStep stateAB apiAllSuccess "t").1.assetStore assetA.id = none :=
  upload_success_persist_then_delete stateAB assetA [assetB] apiAllSuccess "t"
    "cid1" "nid1" rfl rfl rfl rfl

/-- C7: queue restoration never fails — every persisted ID whose asset is
gone from the blob store is silently skipped — the restored queue's ID
sequence is exactly the persisted IDs that still resolve, in persisted
order, and on the restored state (fresh, unpaused flags) a drain step
actually starts whenever the restored queue is non-empty. -/
theorem restore_skips_missing_ids (store : AssetStore) (ids : List String)
    (dismissed : Option Bool) (api : Asset → UploadResult) (now : String)
    (hwf : ∀ i a, store i = some a → a.id = i) :
    (restoreQueue store ids).map (fun a => a.id) =
        ids.filter (fun i => (store i).isSome) ∧
      (restoreQueue store ids ≠ [] →
        (processQueueStep (restoredState store ids dismissed) api now).1.uploadQueue =
          (restoreQueue store ids).tail) := by
  constructor
  · induction ids with
    | nil => rfl
    | cons i rest ih =>
      rcases hi : store i with _ | a
      · simpa [restoreQueue, getAsset, hi] using ih
      · have : a.id = i := hwf i a hi
        simpa [restoreQueue, getAsset, hi, this] using ih
  · intro hne
    obtain ⟨x, xs, hcons⟩ := List.exists_cons_of_ne_nil hne
    have hguard : ((restoredState store ids dismissed).isUploading ||
        (restoredState store ids dismissed).isPaused ||
        (restoredState store ids dismissed).uploadQueue.isEmpty) = false := by
      simp [restoredState, hcons]
    rw [processQueueStep, hguard]
    simp only [Bool.false_eq_true, if_false]
    have hq : (restoredState store ids dismissed).uploadQueue = x :: xs := hcons
    cases hres : api (toUploading x) with
    | success cid nid =>
      simp [drainStep, hq, hres, hcons]
    | failure e =>
      simp [drainStep, hq, hres, hcons]

/-- Witness: restoring from the two-asset store with a dangling middle ID
skips the dangling ID, keeps order, and starts draining the restored head. -/
theorem restore_skips_missing_ids_witness :
    (restoreQueue wfStore ["a1", "ghost", "b2"]).map (fun a => a.id) =
        (["a1", "ghost", "b2"].filter (fun i => (wfStore i).isSome)) ∧
      (restoreQueue wfStore ["a1", "ghost", "b2"] ≠ [] →
        (processQueueStep (restoredState wfStore ["a1", "ghost", "b2"] none)
            apiAllSuccess "t").1.uploadQueue =
          (restoreQueue wfStore ["a1", "ghost", "b2"]).tail) :=
  restore_skips_missing_ids wfStore ["a1", "ghost", "b2"] none apiAllSuccess "t"
    (by
      intro i a h
      by_cases h1 : i = "a1"
      · subst h1
        simp [wfStore] at h
        subst h
        rfl
      · by_cases h2 : i = "b2"
        · subst h2
          simp [wfStore, h1] at h
          subst h
          rfl
        · simp [wfStore, h1, h2] at h)

/-- Draining with an always-successful remote client completes the queued
assets in exactly queue order: the completion broadcasts and the
`uploaded`-status writes list the queue's IDs in order, and the queue is
left empty. -/
theorem processQueue_all_success (api : Asset → UploadResult) (now : String)
    (hapi : ∀ x, ∃ cid nid, api x = UploadResult.success cid nid) :
    ∀ (q : List Asset) (w : UploadState), w.uploadQueue = q →
      w.isUploading = false → w.isPaused = false →
      (processQueue q.length w api now).2.filterMap completionEvId =
          q.map (fun a => a.id) ∧
        (processQueue q.length w api now).2.filterMap uploadedPutEvId =
          q.map (fun a => a.id) ∧
        (processQueue q.length w api now).1.uploadQueue = [] := by
  intro q
  induction q with
  | nil =>
    intro w hq _ _
    exact ⟨rfl, rfl, hq⟩
  | cons a rest ih =>
    intro w hq hu hp
    obtain ⟨cid, nid, hres⟩ := hapi (toUploading a)
    have hguard : (w.isUploading || w.isPaused || w.uploadQueue.isEmpty) = false := by
      simp [hu, hp, hq]
    have hstep :
        drainStep w api now =
          ({ w with
              uploadQueue := rest,
              isUploading := false,
              assetStore := deleteAsset (updateAsset
                (updateAsset w.assetStore a.id AssetStatus.uploading (clearedMetadata a))
                a.id AssetStatus.uploaded (uploadedMetadata a now cid nid)) a.id,
              queueIds := rest.map (fun x => x.id) },
            [StoreEv.putAsset a.id AssetStatus.uploading (clearedMetadata a),
             StoreEv.progress a.id 0 AssetStatus.uploading,
             StoreEv.putAsset a.id AssetStatus.uploaded (uploadedMetadata a now cid nid),
             StoreEv.progress a.id 1 AssetStatus.uploaded,
             StoreEv.deleteEv a.id,
             StoreEv.completion a.id,
             StoreEv.saveIds (rest.map (fun x => x.id))]) := by
      simp [drainStep, hq, hres]
    have hrec := ih (drainStep w api now).1 (by rw [hstep]) (by rw [hstep]) (by rw [hstep]; exact hp)
    rw [List.length_cons, processQueue, hguard]
    simp only [Bool.false_eq_true, if_false]
    refine ⟨?_, ?_, hrec.2.2⟩
    · rw [List.filterMap_append, hrec.1, hstep]
      simp [completionEvId]
    · rw [List.filterMap_append, hrec.2.1, hstep]
      simp [uploadedPutEvId]

/-- C1: with no failures, the upload engine drains strictly FIFO — running
the guarded drain loop from an idle, unpaused state with an
always-successful remote client broadcasts completions and records status
`uploaded` for exactly the enqueued assets in enqueue order, emptying the
queue — and at most one upload is in flight: a drain step attempted while
the busy flag is set is a no-op. -/
theorem uploads_processed_fifo :
    (∀ (w : UploadState) (api : Asset → UploadResult) (now : String),
        w.isUploading = false → w.isPaused = false →
        (∀ x, ∃ cid nid, api x = UploadResult.success cid nid) →
        (processQueue w.uploadQueue.length w api now).2.filterMap completionEvId =
            w.uploadQueue.map (fun a => a.id) ∧
          (processQueue w.uploadQueue.length w api now).2.filterMap uploadedPutEvId =
            w.uploadQueue.map (fun a => a.id) ∧
          (processQueue w.uploadQueue.length w api now).1.uploadQueue = []) ∧
      (∀ (w : UploadState) (api : Asset → UploadResult) (now : String),
        w.isUploading = true → processQueueStep w api now = (w, [])) := by
  constructor
  · intro w api now hu hp hapi
    exact processQueue_all_success api now hapi w.uploadQueue w rfl hu hp
  · intro w api now hu
    simp [processQueueStep, hu]

/-- Witness: draining the concrete two-asset queue with the all-success
client completes `a1` then `b2` (FIFO), records both as uploaded in that
order, and empties the queue; the busy-flag no-op holds on the busy variant
of the same state. -/
theorem uploads_processed_fifo_witness :
    ((processQueue stateAB.uploadQueue.length stateAB apiAllSuccess "t").2.filterMap
          completionEvId =
        stateAB.uploadQueue.map (fun a => a.id) ∧
      (processQueue stateAB.uploadQueue.length stateAB apiAllSuccess "t").2.filterMap
          uploadedPutEvId =
        stateAB.uploadQueue.map (fun a => a.id) ∧
      (processQueue stateAB.uploadQueue.length stateAB apiAllSuccess "t").1.uploadQueue =
        []) ∧
      processQueueStep { stateAB with isUploading := true } apiAllSuccess "t" =
        ({ stateAB with isUploading := true }, []) :=
  ⟨uploads_processed_fifo.1 stateAB apiAllSuccess "t" rfl rfl
      (fun _ => ⟨"cid1", "nid1", rfl⟩),
   uploads_processed_fifo.2 { stateAB with isUploading := true } apiAllSuccess "t" rfl⟩
